import Mathlib

/-!
Verification of the schema-driven field assembler of the Kestrel Development
Kit (`src/kas/assemblers/assembler.cpp`, together with the resource model of
`src/kas/structures/resource.cpp`). The definitions below are a shallow
embedding of that code: machine integers become `Nat`/`Int` with explicit
reduction modulo powers of two, the byte sink becomes an explicit buffer
state, C++ exceptions become an explicit fatal-outcome component, and the
diagnostic log becomes an accumulated list. Definitions whose source is not
part of the repository snapshot (the byte sink `rsrc::data`, the resource
header) are modelled from the specification and marked as such.
-/

namespace Kdk

/-- Semantic value types of raw resource field values
(`kdk::resource::field::value_type`). -/
inductive ValueType where
  | integer
  | percentage
  | resource_id
  | string
  | identifier
  | file_reference
  | color
deriving DecidableEq, Repr

/-- Type mask of a schema value slot (`kdk::assembler::field::value::type`),
a bitset; each flag of the enumeration becomes one boolean component. The
`p_string` flag is the one tested by the string branch of `assemble`. -/
structure TypeMask where
  integer : Bool := false
  bitmask : Bool := false
  string : Bool := false
  color : Bool := false
  resource_reference : Bool := false
  p_string : Bool := false
deriving DecidableEq, Repr

/-- Modelled from the spec: the byte sink `rsrc::data` (spec section 6), an
expandable buffer of bytes with a movable write cursor. Bytes are kept as
natural numbers below 256. -/
structure Data where
  bytes : List Nat
  insertion_point : Nat
deriving DecidableEq, Repr

/-- Modelled from the spec: `rsrc::data::size`. -/
def Data.size (d : Data) : Nat :=
  d.bytes.length

/-- Modelled from the spec: `rsrc::data::set_insertion_point`. -/
def Data.set_insertion_point (d : Data) (off : Nat) : Data :=
  { d with insertion_point := off }

/-- Modelled from the spec: `rsrc::data::pad_to_size` zero-extends the buffer
to at least `n` bytes, is a no-op when the buffer is already large enough,
and never truncates. -/
def Data.pad_to_size (d : Data) (n : Nat) : Data :=
  if n ≤ d.bytes.length then d
  else { d with bytes := d.bytes ++ List.replicate (n - d.bytes.length) 0 }

/-- Store byte `b` at index `i` of buffer `l`, zero-extending the buffer when
`i` lies beyond its end. Helper for the positioned writes of the sink. -/
def setByte (l : List Nat) (i : Nat) (b : Nat) : List Nat :=
  if i < l.length then l.set i b
  else l ++ List.replicate (i - l.length) 0 ++ [b]

/-- Modelled from the spec: a positioned write of a byte sequence at the
cursor of the sink, overwriting in place, extending the buffer as needed and
advancing the cursor past the written bytes. -/
def Data.write_bytes (d : Data) : List Nat → Data
  | [] => d
  | b :: bs =>
      Data.write_bytes
        { bytes := setByte d.bytes d.insertion_point (b % 256),
          insertion_point := d.insertion_point + 1 } bs

/-- Modelled from the spec: `rsrc::data::write_byte` (1 unsigned byte). -/
def Data.write_byte (d : Data) (v : Nat) : Data :=
  d.write_bytes [v % 256]

/-- Modelled from the spec: `rsrc::data::write_word` (2 bytes, big endian,
unsigned). -/
def Data.write_word (d : Data) (v : Nat) : Data :=
  d.write_bytes [v / 2 ^ 8 % 256, v % 256]

/-- Modelled from the spec: `rsrc::data::write_long` (4 bytes, big endian,
unsigned). -/
def Data.write_long (d : Data) (v : Nat) : Data :=
  d.write_bytes [v / 2 ^ 24 % 256, v / 2 ^ 16 % 256, v / 2 ^ 8 % 256, v % 256]

/-- Modelled from the spec: `rsrc::data::write_quad` (8 bytes, big endian,
unsigned). -/
def Data.write_quad (d : Data) (v : Nat) : Data :=
  d.write_bytes [v / 2 ^ 56 % 256, v / 2 ^ 48 % 256, v / 2 ^ 40 % 256,
    v / 2 ^ 32 % 256, v / 2 ^ 24 % 256, v / 2 ^ 16 % 256, v / 2 ^ 8 % 256,
    v % 256]

/-- Modelled from the spec: `rsrc::data::write_signed_byte`; a signed value is
written as its two's-complement byte. -/
def Data.write_signed_byte (d : Data) (v : Int) : Data :=
  d.write_byte (v % (2 ^ 8 : Int)).toNat

/-- Modelled from the spec: `rsrc::data::write_signed_word` (2 bytes, big
endian, two's complement). -/
def Data.write_signed_word (d : Data) (v : Int) : Data :=
  d.write_word (v % (2 ^ 16 : Int)).toNat

/-- Modelled from the spec: `rsrc::data::write_signed_long` (4 bytes, big
endian, two's complement). -/
def Data.write_signed_long (d : Data) (v : Int) : Data :=
  d.write_long (v % (2 ^ 32 : Int)).toNat

/-- Modelled from the spec: `rsrc::data::write_signed_quad` (8 bytes, big
endian, two's complement). -/
def Data.write_signed_quad (d : Data) (v : Int) : Data :=
  d.write_quad (v % (2 ^ 64 : Int)).toNat

/-- Modelled from the spec: `rsrc::data::write_cstr` writes a zero-padded
string truncated or padded to the given fixed width. -/
def Data.write_cstr (d : Data) (text : String) (width : Nat) : Data :=
  let bs := text.toList.map (fun c => c.toNat % 256)
  d.write_bytes (bs.take width ++ List.replicate (width - bs.length) 0)

/-- Modelled from the spec: `rsrc::data::write_pstr` writes a length-prefixed
string: one length byte followed by the character bytes. -/
def Data.write_pstr (d : Data) (text : String) : Data :=
  let bs := text.toList.map (fun c => c.toNat % 256)
  d.write_bytes (bs.length % 256 :: bs)

/-- Outcomes of the C++ standard numeric-parse functions used by the
assembler: `std::invalid_argument` when no digits can be read, and
`std::out_of_range` when the value does not fit the destination type. -/
inductive ParseError where
  | invalid_argument
  | out_of_range
deriving DecidableEq, Repr

/-- C locale whitespace, skipped by the `std::stoX` family before the
number. -/
def isCSpace (c : Char) : Bool :=
  c = ' ' || c = '\t' || c = '\n' || c = '\r' ||
    c = Char.ofNat 11 || c = Char.ofNat 12

/-- Numeric value of a list of decimal digit characters. -/
def digitsToNat (ds : List Char) : Nat :=
  ds.foldl (fun a c => a * 10 + (c.toNat - 48)) 0

/-- The common scan of the `std::stoX` family (base 10): skip whitespace,
read an optional sign, then greedily read decimal digits; `none` when no
digit is found. Trailing characters are ignored. -/
def scanInt (s : String) : Option Int :=
  let cs := s.toList.dropWhile isCSpace
  let signAndRest : Bool × List Char :=
    match cs with
    | c :: rest => if c = '-' then (true, rest)
                   else if c = '+' then (false, rest)
                   else (false, cs)
    | [] => (false, cs)
  let ds := signAndRest.2.takeWhile Char.isDigit
  if ds = [] then none
  else some (if signAndRest.1 then -(digitsToNat ds : Int) else (digitsToNat ds : Int))

/-- `std::stoi`: parse into a 32-bit signed `int`, raising `out_of_range`
outside its range. -/
def stoi (s : String) : Except ParseError Int :=
  match scanInt s with
  | none => .error .invalid_argument
  | some v =>
      if v < -(2 ^ 31 : Int) ∨ (2 ^ 31 : Int) - 1 < v then .error .out_of_range
      else .ok v

/-- `std::stol` on an LP64 platform: parse into a 64-bit signed `long`. -/
def stol (s : String) : Except ParseError Int :=
  match scanInt s with
  | none => .error .invalid_argument
  | some v =>
      if v < -(2 ^ 63 : Int) ∨ (2 ^ 63 : Int) - 1 < v then .error .out_of_range
      else .ok v

/-- `std::stoll`: parse into a 64-bit signed `long long`. -/
def stoll (s : String) : Except ParseError Int :=
  stol s

/-- `std::stoul` on an LP64 platform: parse into a 64-bit unsigned `long`; a
negated magnitude wraps modulo `2 ^ 64`, and a magnitude beyond the type
raises `out_of_range`. -/
def stoul (s : String) : Except ParseError Nat :=
  match scanInt s with
  | none => .error .invalid_argument
  | some v =>
      if (2 ^ 64 : Nat) - 1 < v.natAbs then .error .out_of_range
      else .ok (v % (2 ^ 64 : Int)).toNat

/-- `std::stoull`: parse into a 64-bit unsigned `unsigned long long`. -/
def stoull (s : String) : Except ParseError Nat :=
  stoul s

/-- `static_cast` to a signed integer of `w` bytes: two's-complement
wrap-around into the interval from `-(2 ^ (8 * w - 1))` up to
`2 ^ (8 * w - 1) - 1`. -/
def signed_cast (w : Nat) (v : Int) : Int :=
  (v + 2 ^ (8 * w - 1)) % (2 ^ (8 * w) : Int) - 2 ^ (8 * w - 1)

/-- A diagnostic accumulated through `log::error` / `log::warning`; one
constructor per reporting call site of the assembler, carrying the data
interpolated into the message of that site. `deprecated_field` is the only
`log::warning` site; the rest are `log::error` sites. -/
inductive Diag where
  | missing_field (name : String)
  | arity_mismatch (name : String)
  | type_mismatch (name : String) (index : Nat)
  | unrecognized_symbol (symbol : String)
  | deprecated_field (name : String)
deriving DecidableEq, Repr

/-- Whether a diagnostic was reported through `log::warning` rather than
`log::error`. -/
def Diag.is_warning : Diag → Bool
  | .deprecated_field _ => true
  | _ => false

/-- The mutable state of one assembly: the blob under construction
(`m_blob`) and the diagnostics reported so far, in order of emission. -/
structure AsmState where
  blob : Data
  diags : List Diag
deriving DecidableEq, Repr

/-- Emission of one diagnostic (a `log::error` or `log::warning` call). -/
def AsmState.report (s : AsmState) (d : Diag) : AsmState :=
  { s with diags := s.diags ++ [d] }

/-- Fatal outcomes of `kdk::assembler::assemble(field)` in a total embedding:
the `std::runtime_error` thrown by `encode` on an unsupported width, an
uncaught exception of a `std::stoX` call, and the two unguarded
`std::vector::operator[]` accesses whose out-of-bounds case is undefined
behaviour in the C++ source. -/
inductive Fatal where
  | illegal_integer_width
  | parse (e : ParseError)
  | values_index_out_of_bounds
  | offset_index_out_of_bounds
deriving DecidableEq, Repr

/-- A value slot of a field schema (`kdk::assembler::field::value`): name,
allowed-type bitmask, byte offset, byte width, optional symbol table and
optional default-value generator. -/
structure Value where
  name : String
  type_mask : TypeMask
  offset : Nat
  size : Nat
  symbols : List (String × Int) := []
  default_value : Option (Data → Data) := none

/-- Source `kdk::assembler::field::value::type_allowed`: maps the semantic
type of a raw value to a check against the allowed-type bitmask. -/
def Value.type_allowed (v : Value) (t : ValueType) : Bool :=
  match t with
  | .file_reference | .resource_id => v.type_mask.resource_reference
  | .identifier =>
      if !v.symbols.isEmpty then v.type_mask.resource_reference
      else v.type_mask.integer || v.type_mask.bitmask
  | .integer => v.type_mask.integer || v.type_mask.bitmask
  | .string => v.type_mask.string
  | .percentage => v.type_mask.integer
  | .color => v.type_mask.color

/-- Source `kdk::assembler::field::value::write_default_value`: when a
default generator is configured, move the cursor to the offset of the slot
and invoke the generator; otherwise leave the sink untouched. -/
def Value.write_default_value (v : Value) (data : Data) : Data :=
  match v.default_value with
  | some f => f (data.set_insertion_point v.offset)
  | none => data

/-- A field schema (`kdk::assembler::field`): name, required and deprecated
flags, and the ordered expected value slots. -/
structure Field where
  name : String
  required : Bool := false
  deprecated : Bool := false
  expected_values : List Value := []

/-- Source `kdk::assembler::field::required_data_size`: the maximum of
`offset + size` over the expected value slots (0 for none). -/
def Field.required_data_size (f : Field) : Nat :=
  f.expected_values.foldl (fun m v => max m (v.offset + v.size)) 0

/-- Source `kdk::assembler::field::offset` returns
`m_expected_values[0].offset()` with no emptiness guard; the empty case is an
out-of-bounds `std::vector` access, rendered here as `none`. -/
def Field.offset (f : Field) : Option Nat :=
  match f.expected_values with
  | [] => none
  | v :: _ => some v.offset

/-- A raw resource field (`kdk::resource::field`): a name and the ordered
`(literal, semantic type)` values produced by the parser. -/
structure RField where
  name : String
  values : List (String × ValueType)
deriving DecidableEq, Repr

/-- A resource (`kdk::resource`): type tag, numeric id, name and the ordered
raw fields. -/
structure Resource where
  type : String
  id : Int
  name : String
  fields : List RField := []
deriving DecidableEq, Repr

/-- Modelled from the spec: `kdk::resource::field_named` is declared in the
resource header, which is not part of the snapshot; per the data model
(spec section 3) lookup returns the first field whose name matches, or
nothing. -/
def Resource.field_named (r : Resource) (n : String) : Option RField :=
  r.fields.find? (fun f => f.name == n)

/-- Modelled from the spec: the default of the `is_signed` parameter of
`kdk::assembler::encode`, declared in the missing `assembler.hpp` header;
the `assemble` call sites pass only the value and the width. No claim below
depends on its concrete value. -/
def encode_default_signed : Bool := false

/-- Source `kdk::assembler::encode`: parse the literal with the signed or
unsigned 64-bit parser according to `is_signed`, cast to the destination
width, and write it through the matching sink call; any width outside 1, 2,
4 and 8 raises the fatal illegal-width error. -/
def encode (value : String) (width : Nat) (is_signed : Bool) (blob : Data) :
    Except Fatal Data :=
  if width = 1 ∧ is_signed then
    match stol value with
    | .error e => .error (.parse e)
    | .ok v => .ok (blob.write_signed_byte (signed_cast 1 v))
  else if width = 1 then
    match stoul value with
    | .error e => .error (.parse e)
    | .ok v => .ok (blob.write_byte (v % 2 ^ 8))
  else if width = 2 ∧ is_signed then
    match stol value with
    | .error e => .error (.parse e)
    | .ok v => .ok (blob.write_signed_word (signed_cast 2 v))
  else if width = 2 then
    match stoul value with
    | .error e => .error (.parse e)
    | .ok v => .ok (blob.write_word (v % 2 ^ 16))
  else if width = 4 ∧ is_signed then
    match stol value with
    | .error e => .error (.parse e)
    | .ok v => .ok (blob.write_signed_long (signed_cast 4 v))
  else if width = 4 then
    match stoul value with
    | .error e => .error (.parse e)
    | .ok v => .ok (blob.write_long (v % 2 ^ 32))
  else if width = 8 ∧ is_signed then
    match stoll value with
    | .error e => .error (.parse e)
    | .ok v => .ok (blob.write_signed_quad (signed_cast 8 v))
  else if width = 8 then
    match stoull value with
    | .error e => .error (.parse e)
    | .ok v => .ok (blob.write_quad (v % 2 ^ 64))
  else
    .error .illegal_integer_width

/-- Source `kdk::assembler::find_field`: look the field up in the resource
and report a missing-field error when it is required but absent. -/
def find_field (r : Resource) (name : String) (required : Bool)
    (s : AsmState) : Option RField × AsmState :=
  (r.field_named name,
    if required ∧ r.field_named name = none then
      s.report (.missing_field name)
    else s)

/-- The body of the per-value loop of `kdk::assembler::assemble(field)`
(source lines 66 to 124) at loop index `n`: type check, seek to the offset of
the slot, then dispatch the encoding on the semantic type. The identifier
case mirrors the source faithfully: on a symbol-table match it encodes the
literal text itself, and the unrecognized-symbol error is reported after the
scan loop unconditionally. -/
def assembleValue (fname : String) (n : Nat) (v : String × ValueType)
    (expected : Value) (s : AsmState) : AsmState × Option Fatal :=
  let s1 := if expected.type_allowed v.2 then s
            else s.report (.type_mismatch fname n)
  let s2 := { s1 with blob := s1.blob.set_insertion_point expected.offset }
  match v.2 with
  | .integer | .percentage =>
      match encode v.1 expected.size encode_default_signed s2.blob with
      | .error f => (s2, some f)
      | .ok b => ({ s2 with blob := b }, none)
  | .resource_id =>
      match stoi v.1 with
      | .error e => (s2, some (.parse e))
      | .ok x =>
          ({ s2 with blob := s2.blob.write_signed_word (signed_cast 2 x) },
            none)
  | .string =>
      if expected.type_mask.p_string then
        ({ s2 with blob := s2.blob.write_cstr v.1 expected.size }, none)
      else
        ({ s2 with blob := s2.blob.write_pstr v.1 }, none)
  | .identifier =>
      match expected.symbols.find? (fun sym => sym.1 == v.1) with
      | some _ =>
          match encode v.1 expected.size encode_default_signed s2.blob with
          | .error f => (s2, some f)
          | .ok b =>
              (AsmState.report { s2 with blob := b }
                (.unrecognized_symbol v.1), none)
      | none => (s2.report (.unrecognized_symbol v.1), none)
  | .file_reference => (s2, none)
  | .color =>
      match stoi v.1 with
      | .error e => (s2, some (.parse e))
      | .ok x =>
          ({ s2 with blob := s2.blob.write_long ((x % (2 ^ 32 : Int)).toNat) },
            none)

/-- The per-value loop of `kdk::assembler::assemble(field)` (source lines 65
to 125): it runs over the expected value slots, reading the provided value at
the same index; when the provided values run out first, the source indexes
`resource_field->values()` out of bounds, rendered here as the fatal
out-of-bounds outcome. Extra provided values beyond the expected count are
never read. -/
def assembleValues (fname : String) :
    List (String × ValueType) → List Value → Nat → AsmState →
      AsmState × Option Fatal
  | _, [], _, s => (s, none)
  | [], _ :: _, _, s => (s, some .values_index_out_of_bounds)
  | v :: vs, e :: es, n, s =>
      match assembleValue fname n v e s with
      | (s1, some f) => (s1, some f)
      | (s1, none) => assembleValues fname vs es (n + 1) s1

/-- Source `kdk::assembler::assemble(field)` (lines 41 to 134): find the raw
field, pad the blob to the required size, seek to the field offset (an
unguarded element-0 access), warn when the schema is deprecated, then either
check arity and encode the provided values, or write the default values of
every slot when the field is absent. -/
def assemble (field : Field) (r : Resource) (s : AsmState) :
    AsmState × Option Fatal :=
  let fr := find_field r field.name field.required s
  let resource_field := fr.1
  let s1 := fr.2
  let s2 := { s1 with
    blob := (s1.blob.set_insertion_point s1.blob.size).pad_to_size
      field.required_data_size }
  match field.offset with
  | none => (s2, some .offset_index_out_of_bounds)
  | some off =>
    let s3 := { s2 with blob := s2.blob.set_insertion_point off }
    let s4 := if field.deprecated then s3.report (.deprecated_field field.name)
              else s3
    match resource_field with
    | some rf =>
        let s5 := if rf.values.length ≠ field.expected_values.length
                  then s4.report (.arity_mismatch field.name) else s4
        assembleValues field.name rf.values field.expected_values 0 s5
    | none =>
        ({ s4 with
            blob := field.expected_values.foldl
              (fun b e => e.write_default_value b) s4.blob }, none)

/-! Concrete instances used to settle the claims on explicit inputs. -/

/-- The empty initial assembly state: empty blob, cursor 0, no diagnostics. -/
def s0 : AsmState := ⟨⟨[], 0⟩, []⟩

/-- A value slot with the symbol table of the symbol-resolution example of the
spec: kNone maps to 0 and kRed maps to 1. -/
def c1Value : Value :=
  { name := "sym", type_mask := { resource_reference := true }, offset := 0,
    size := 1, symbols := [("kNone", 0), ("kRed", 1)] }

/-- A one-slot field schema holding `c1Value`. -/
def c1Field : Field :=
  { name := "example", expected_values := [c1Value] }

/-- A resource providing the field with the identifier literal kRed. -/
def c1Resource : Resource :=
  { type := "test", id := 128, name := "r",
    fields := [⟨"example", [("kRed", .identifier)]⟩] }

/-- First slot of a two-slot integer field schema, bytes 0 and 1. -/
def c2V0 : Value :=
  { name := "a", type_mask := { integer := true }, offset := 0, size := 2 }

/-- Second slot of a two-slot integer field schema, bytes 2 and 3. -/
def c2V1 : Value :=
  { name := "b", type_mask := { integer := true }, offset := 2, size := 2 }

/-- A field schema expecting two values. -/
def c2Field : Field :=
  { name := "pair", expected_values := [c2V0, c2V1] }

/-- A resource providing only one value for the two-slot field. -/
def c2Resource : Resource :=
  { type := "t", id := 1, name := "r",
    fields := [⟨"pair", [("7", .integer)]⟩] }

/-- A value slot whose symbol table maps the literal 0 to the integer 0; the
literal is numeric so that the buggy encode-the-literal path succeeds and
the loop continues past it. -/
def c3Value : Value :=
  { name := "sym", type_mask := { resource_reference := true }, offset := 0,
    size := 1, symbols := [("0", 0)] }

/-- A one-slot field schema holding `c3Value`. -/
def c3Field : Field :=
  { name := "flag", expected_values := [c3Value] }

/-- A resource providing the field with the identifier literal 0, which is
present in the symbol table. -/
def c3Resource : Resource :=
  { type := "t", id := 1, name := "r",
    fields := [⟨"flag", [("0", .identifier)]⟩] }

/-- A color value slot at offset 0. -/
def c8Value : Value :=
  { name := "tint", type_mask := { color := true }, offset := 0, size := 4 }

/-- A one-slot field schema holding `c8Value`. -/
def c8Field : Field :=
  { name := "tint", expected_values := [c8Value] }

/-- A resource providing the color literal 4278190080, the packed value
FF000000, which fits an unsigned 32-bit integer but not a signed one. -/
def c8Resource : Resource :=
  { type := "t", id := 1, name := "r",
    fields := [⟨"tint", [("4278190080", .color)]⟩] }

/-- A value slot with an integer allowed type and a default-value generator
writing the two bytes FF FF at offset 10, the default-fill example of the
spec. -/
def c6Value : Value :=
  { name := "dflt", type_mask := { integer := true }, offset := 10, size := 2,
    default_value := some (fun d => d.write_word 0xFFFF) }

/-- A required one-slot field schema holding `c6Value`. -/
def c6Field : Field :=
  { name := "must", required := true, expected_values := [c6Value] }

/-- A resource without any field, so the required field is absent. -/
def c6Resource : Resource :=
  { type := "t", id := 1, name := "r", fields := [] }

/-- A value slot for the deprecation claim. -/
def c4Value : Value :=
  { name := "v", type_mask := { integer := true }, offset := 0, size := 1 }

/-- A deprecated optional one-slot field schema. -/
def c4Field : Field :=
  { name := "old", deprecated := true, expected_values := [c4Value] }

/-- A resource without any field, so the deprecated field is absent. -/
def c4Resource : Resource :=
  { type := "t", id := 1, name := "r", fields := [] }

/-- A resource-reference value slot with declared size 7, exercising that the
declared size is ignored by the resource-id encoding. -/
def c5Value : Value :=
  { name := "ref", type_mask := { resource_reference := true }, offset := 3,
    size := 7 }

/-- A field schema with an empty expected-value list (no value slot). -/
def c10EmptyField : Field :=
  { name := "hollow" }

/-- A field schema with one value slot, for the guarded side of the
element-0 access claim. -/
def c10OneField : Field :=
  { name := "solid", expected_values := [c4Value] }

/-- A resource without any field. -/
def c10Resource : Resource :=
  { type := "t", id := 1, name := "r", fields := [] }

/-! Helper lemmas about the byte sink. -/

/-- Storing a byte at index `i` extends the buffer to at least `i + 1`. -/
theorem setByte_length (l : List Nat) (i b : Nat) :
    (setByte l i b).length = max l.length (i + 1) := by
  unfold setByte
  split
  · simp only [List.length_set]
    omega
  · simp only [List.length_append, List.length_replicate, List.length_cons,
      List.length_nil]
    omega

/-- A two-byte positioned write extends the buffer to at least two bytes past
the cursor and otherwise preserves its length. -/
theorem write_word_length (d : Data) (v : Nat) :
    (d.write_word v).bytes.length =
      max d.bytes.length (d.insertion_point + 2) := by
  simp only [Data.write_word, Data.write_bytes, setByte_length]
  omega

/-- Padding never leaves the buffer shorter than the requested size. -/
theorem pad_to_size_size (d : Data) (n : Nat) :
    n ≤ (d.pad_to_size n).size := by
  unfold Data.pad_to_size Data.size
  split
  next h => simpa using h
  next h =>
    simp only [List.length_append, List.length_replicate]
    omega

/-- Diagnostic reporting never touches the blob. -/
theorem report_blob (s : AsmState) (d : Diag) : (s.report d).blob = s.blob :=
  rfl

/-! Claim theorems. -/

/-- C1: code bug. The claim says a matched identifier encodes the associated
integer of the symbol (here 1). The source instead passes the literal text
itself to `encode` (line 105 passes the first tuple component of the raw
value, not the integer of the matched symbol), so the numeric parse of kRed
raises `std::invalid_argument` and the assembly dies without writing the
integer: at the input of the spec example, literal kRed with table kNone to
0 and kRed to 1, the result is the fatal parse error, not an encoding of
1. -/
theorem c1_identifier_encodes_literal_not_symbol :
    (("kRed", (1 : Int)) ∈ c1Value.symbols) ∧
    assemble c1Field c1Resource s0 =
      (⟨⟨[0], 0⟩, []⟩, some (Fatal.parse ParseError.invalid_argument)) := by
  exact ⟨by decide, by decide⟩

/-- C2: code bug. The claim says an arity mismatch is reported and no
out-of-bounds access of the provided values occurs. The source does report
the mismatch, but the per-value loop then runs over all expected slots and
indexes the provided values without a bound check (line 66), so with one
provided value against two expected slots the second iteration reads index 1
of a one-element vector: the arity error is in the diagnostics and the fatal
out-of-bounds outcome is reached. -/
theorem c2_arity_mismatch_reads_values_out_of_bounds :
    c2Resource.field_named c2Field.name =
      some ⟨"pair", [("7", ValueType.integer)]⟩ ∧
    (assemble c2Field c2Resource s0).1.diags =
      [Diag.arity_mismatch ("pair")] ∧
    (assemble c2Field c2Resource s0).2 =
      some Fatal.values_index_out_of_bounds := by
  exact ⟨by decide, by decide, by decide⟩

/-- C3: code bug. The claim says the unrecognized-symbol error is reported
exactly when the literal matches no symbol. In the source the `break` inside
the scan loop (line 106) only leaves the loop, and the error report on line
110 follows the loop unconditionally, so the error is reported even when the
literal matches: with symbol table mapping the literal 0 to the integer 0
and the matching literal 0 the final diagnostics still contain the
unrecognized-symbol error. -/
theorem c3_unrecognized_symbol_reported_despite_match :
    (("0", (0 : Int)) ∈ c3Value.symbols) ∧
    assemble c3Field c3Resource s0 =
      (⟨⟨[0], 1⟩, [Diag.unrecognized_symbol ("0")]⟩, none) := by
  exact ⟨by decide, by decide⟩

/-- C8: code bug. The claim says every literal in the unsigned 32-bit range
is parsed and encoded without error. The source parses a color with
`std::stoi` (line 120), whose range is the signed 32-bit one, and only then
casts to `uint32_t`; a literal above `2 ^ 31 - 1` therefore raises
`std::out_of_range` before anything is written: the value 4278190080 is
below `2 ^ 32` yet assembly ends in the fatal out-of-range parse error. -/
theorem c8_color_literal_above_int_max_raises :
    (4278190080 : Nat) < 2 ^ 32 ∧
    stoi ("4278190080") = .error .out_of_range ∧
    (assemble c8Field c8Resource s0).2 =
      some (Fatal.parse ParseError.out_of_range) := by
  exact ⟨by decide, by rfl, by decide⟩

/-- C5: confirmed. For every value of semantic type resource-id the source
parses the literal with `std::stoi`, casts to the 16-bit signed type and
writes it through the signed-word sink call at the offset of the slot; the
slot `e` is arbitrary, so the declared size plays no part, and the written
word occupies exactly the two bytes after the offset. -/
theorem c5_resource_id_always_signed_word
    (fname : String) (n : Nat) (lit : String) (e : Value) (s : AsmState)
    (x : Int) (h : stoi lit = .ok x) :
    (assembleValue fname n (lit, .resource_id) e s).2 = none ∧
    (assembleValue fname n (lit, .resource_id) e s).1.blob =
      (s.blob.set_insertion_point e.offset).write_signed_word
        (signed_cast 2 x) ∧
    ((s.blob.set_insertion_point e.offset).write_signed_word
        (signed_cast 2 x)).bytes.length =
      max s.blob.bytes.length (e.offset + 2) := by
  refine ⟨?_, ?_, ?_⟩ <;>
  · by_cases hta : e.type_allowed ValueType.resource_id <;>
      simp [assembleValue, hta, h, AsmState.report, Data.write_signed_word,
        write_word_length, Data.set_insertion_point]

/-- C5 witness: the literal 12 at the slot of declared size 7 is still
written as one signed 16-bit word. -/
theorem c5_witness :
    (assembleValue ("f") 0 (("12"), .resource_id) c5Value s0).2 = none ∧
    (assembleValue ("f") 0 (("12"), .resource_id) c5Value s0).1.blob =
      (s0.blob.set_insertion_point c5Value.offset).write_signed_word
        (signed_cast 2 12) ∧
    ((s0.blob.set_insertion_point c5Value.offset).write_signed_word
        (signed_cast 2 12)).bytes.length =
      max s0.blob.bytes.length (c5Value.offset + 2) :=
  c5_resource_id_always_signed_word ("f") 0 ("12") c5Value s0 12 (by rfl)

/-- C7: confirmed. A string value is written as a zero-padded fixed string of
the declared size exactly when the type mask of the slot carries the flag
tested by the string branch of `assemble` (named `p_string` in the source),
and as a length-prefixed string otherwise; on the empty sink the literal Hi
with declared size 8 and the flag yields the 8 bytes 48 69 00 00 00 00 00 00,
and without the flag the 3 bytes 02 48 69. -/
theorem c7_string_fixed_flag_selects_cstr :
    (∀ (fname : String) (n : Nat) (lit : String) (e : Value) (s : AsmState),
      (assembleValue fname n (lit, .string) e s).2 = none ∧
      (assembleValue fname n (lit, .string) e s).1.blob =
        (if e.type_mask.p_string then
          (s.blob.set_insertion_point e.offset).write_cstr lit e.size
        else (s.blob.set_insertion_point e.offset).write_pstr lit)) ∧
    (Data.write_cstr ⟨[], 0⟩ ("Hi") 8).bytes =
      [0x48, 0x69, 0, 0, 0, 0, 0, 0] ∧
    (Data.write_pstr ⟨[], 0⟩ ("Hi")).bytes = [0x02, 0x48, 0x69] := by
  refine ⟨fun fname n lit e s => ?_, by decide, by decide⟩
  by_cases hps : e.type_mask.p_string <;>
    by_cases hta : e.type_allowed ValueType.string <;>
      simp [assembleValue, hps, hta, AsmState.report]

/-- For each supported width, a parse failure of `encode` in signed mode is
exactly a failure of the signed 64-bit parser. -/
theorem encode_parse_signed (lit : String) (w : Nat) (d : Data)
    (hw : w = 1 ∨ w = 2 ∨ w = 4 ∨ w = 8) (pe : ParseError) :
    (encode lit w true d = .error (.parse pe) ↔ stol lit = .error pe) := by
  rcases hw with rfl | rfl | rfl | rfl <;>
    rcases hs : stol lit with e | x <;> simp [encode, stoll, hs]

/-- For each supported width, a parse failure of `encode` in unsigned mode is
exactly a failure of the unsigned 64-bit parser. -/
theorem encode_parse_unsigned (lit : String) (w : Nat) (d : Data)
    (hw : w = 1 ∨ w = 2 ∨ w = 4 ∨ w = 8) (pe : ParseError) :
    (encode lit w false d = .error (.parse pe) ↔ stoul lit = .error pe) := by
  rcases hw with rfl | rfl | rfl | rfl <;>
    rcases hs : stoul lit with e | x <;> simp [encode, stoull, hs]

/-- For each supported width, a successful `encode` is a positioned write of
exactly that many bytes at the cursor. -/
theorem encode_ok_bytes (lit : String) (w : Nat) (sgn : Bool) (d : Data)
    (b : Data) (hw : w = 1 ∨ w = 2 ∨ w = 4 ∨ w = 8)
    (hb : encode lit w sgn d = .ok b) :
    ∃ bs : List Nat, bs.length = w ∧ b = d.write_bytes bs := by
  rcases hw with rfl | rfl | rfl | rfl <;> cases sgn <;>
    first
    | (rcases hs : stol lit with e | x <;> simp [encode, stoll, hs] at hb
       subst hb
       refine ⟨_, ?_, rfl⟩
       rfl)
    | (rcases hs : stoul lit with e | x <;> simp [encode, stoull, hs] at hb
       subst hb
       refine ⟨_, ?_, rfl⟩
       rfl)

/-- C9: confirmed. The shared numeric encode path accepts exactly the byte
widths 1, 2, 4 and 8: outside those it fails with the illegal-width fatal
error and writes nothing, and inside them it either propagates a failure of
the parser selected by the signedness flag or performs a positioned write of
exactly the requested number of bytes. -/
theorem c9_encode_width_gate (lit : String) (w : Nat) (sgn : Bool)
    (d : Data) :
    (¬(w = 1 ∨ w = 2 ∨ w = 4 ∨ w = 8) →
      encode lit w sgn d = .error .illegal_integer_width) ∧
    ((w = 1 ∨ w = 2 ∨ w = 4 ∨ w = 8) →
      (∀ pe : ParseError,
        (encode lit w sgn d = .error (.parse pe) ↔
          (if sgn then stol lit = .error pe else stoul lit = .error pe))) ∧
      (∀ b : Data, encode lit w sgn d = .ok b →
        ∃ bs : List Nat, bs.length = w ∧ b = d.write_bytes bs)) := by
  refine ⟨fun hw => ?_,
    fun hw => ⟨fun pe => ?_, fun b hb => encode_ok_bytes lit w sgn d b hw hb⟩⟩
  · simp only [not_or] at hw
    obtain ⟨h1, h2, h4, h8⟩ := hw
    simp [encode, h1, h2, h4, h8]
  · cases sgn
    · simpa using encode_parse_unsigned lit w d hw pe
    · simpa using encode_parse_signed lit w d hw pe

/-- C9 witness: width 3 is rejected with the illegal-width error. -/
theorem c9_witness :
    encode ("5") 3 true ⟨[], 0⟩ = .error .illegal_integer_width :=
  (c9_encode_width_gate ("5") 3 true ⟨[], 0⟩).1 (by decide)

/-- The numeric encode path never raises the element-0 out-of-bounds
outcome. -/
theorem encode_no_offset_fault (lit : String) (w : Nat) (sg : Bool)
    (d : Data) :
    encode lit w sg d ≠ .error .offset_index_out_of_bounds := by
  unfold encode
  split_ifs <;>
    first
    | (split <;> simp)
    | simp

/-- The per-value dispatch never raises the element-0 out-of-bounds
outcome. -/
theorem assembleValue_no_offset_fault (fname : String) (n : Nat)
    (v : String × ValueType) (e : Value) (s : AsmState) :
    (assembleValue fname n v e s).2 ≠
      some Fatal.offset_index_out_of_bounds := by
  obtain ⟨lit, t⟩ := v
  cases t <;> dsimp only [assembleValue] <;>
    (repeat' split) <;> simp <;>
    (rintro rfl; simp_all [encode_no_offset_fault])

/-- The per-value loop raises only the value-index out-of-bounds outcome or
a fatal outcome of the dispatch, never the element-0 one. -/
theorem assembleValues_no_offset_fault (fname : String) :
    ∀ (es : List Value) (vs : List (String × ValueType)) (n : Nat)
      (s : AsmState),
      (assembleValues fname vs es n s).2 ≠
        some Fatal.offset_index_out_of_bounds := by
  intro es
  induction es with
  | nil => intro vs n s; cases vs <;> simp [assembleValues]
  | cons e es ih =>
      intro vs n s
      cases vs with
      | nil => simp [assembleValues]
      | cons v vs =>
          dsimp only [assembleValues]
          split
          · next s1 f heq =>
              have hv := assembleValue_no_offset_fault fname n v e s
              rw [heq] at hv
              exact hv
          · next s1 heq => exact ih vs (n + 1) s1

/-- C10: confirmed. The field-offset accessor is exactly the unguarded
element-0 read: it has no result precisely on an empty expected-value list;
`assemble` evaluates it unconditionally, so on an empty list it reaches the
out-of-bounds outcome whatever the resource, and with at least one value
slot that outcome is unreachable. -/
theorem c10_assemble_requires_value_slot :
    (∀ f : Field, f.offset = none ↔ f.expected_values = []) ∧
    (∀ (f : Field) (r : Resource) (s : AsmState), f.expected_values = [] →
      (assemble f r s).2 = some Fatal.offset_index_out_of_bounds) ∧
    (∀ (f : Field) (r : Resource) (s : AsmState), f.expected_values ≠ [] →
      (assemble f r s).2 ≠ some Fatal.offset_index_out_of_bounds) := by
  refine ⟨fun f => ?_, fun f r s h => ?_, fun f r s h => ?_⟩
  · cases hv : f.expected_values <;> simp [Field.offset, hv]
  · have hoff : f.offset = none := by simp [Field.offset, h]
    simp [assemble, hoff]
  · obtain ⟨v, vs, hv⟩ : ∃ v vs, f.expected_values = v :: vs := by
      cases hv : f.expected_values with
      | nil => exact absurd hv h
      | cons a l => exact ⟨a, l, rfl⟩
    have hoff : f.offset = some v.offset := by simp [Field.offset, hv]
    dsimp only [assemble]
    rw [hoff]
    dsimp only
    split
    · next rf heq =>
        exact assembleValues_no_offset_fault f.name f.expected_values
          rf.values 0 _
    · next heq => simp

/-- C10 witness: an empty schema field reaches the out-of-bounds outcome and
a one-slot schema field does not. -/
theorem c10_witness :
    (assemble c10EmptyField c10Resource s0).2 =
      some Fatal.offset_index_out_of_bounds ∧
    (assemble c10OneField c10Resource s0).2 ≠
      some Fatal.offset_index_out_of_bounds :=
  ⟨c10_assemble_requires_value_slot.2.1 c10EmptyField c10Resource s0 rfl,
   c10_assemble_requires_value_slot.2.2 c10OneField c10Resource s0
     (List.cons_ne_nil _ _)⟩

/-- The per-value dispatch reports only errors: membership of the
deprecation warning in the diagnostics is unchanged by it. -/
theorem assembleValue_dep_mem (fname : String) (n : Nat)
    (v : String × ValueType) (e : Value) (s : AsmState) (nm : String) :
    (Diag.deprecated_field nm ∈ (assembleValue fname n v e s).1.diags ↔
      Diag.deprecated_field nm ∈ s.diags) := by
  obtain ⟨lit, t⟩ := v
  cases t <;> dsimp only [assembleValue] <;>
    (repeat' split) <;> simp_all [AsmState.report]

/-- The per-value loop reports only errors: membership of the deprecation
warning in the diagnostics is unchanged by it. -/
theorem assembleValues_dep_mem (fname : String) :
    ∀ (es : List Value) (vs : List (String × ValueType)) (n : Nat)
      (s : AsmState) (nm : String),
      (Diag.deprecated_field nm ∈
          (assembleValues fname vs es n s).1.diags ↔
        Diag.deprecated_field nm ∈ s.diags) := by
  intro es
  induction es with
  | nil => intro vs n s nm; cases vs <;> simp [assembleValues]
  | cons e es ih =>
      intro vs n s nm
      cases vs with
      | nil => simp [assembleValues]
      | cons v vs =>
          dsimp only [assembleValues]
          split
          · next s1 f heq =>
              have hv := assembleValue_dep_mem fname n v e s nm
              rw [heq] at hv
              exact hv
          · next s1 heq =>
              rw [ih vs (n + 1) s1 nm]
              have hv := assembleValue_dep_mem fname n v e s nm
              rw [heq] at hv
              exact hv

/-- C4 counterexample: the claim says no deprecation warning is emitted for
a deprecated field that is absent from the resource; in the source the
warning is guarded only by the deprecated flag (line 52), not by presence,
so the absent deprecated field old still draws the warning. -/
theorem c4_counterexample_absent_field_still_warned :
    c4Resource.field_named c4Field.name = none ∧
    c4Field.deprecated = true ∧
    Diag.deprecated_field c4Field.name ∈
      (assemble c4Field c4Resource s0).1.diags := by
  exact ⟨by decide, by decide, by decide⟩

/-- C4 amended: `assemble` emits the deprecation warning exactly when the
field schema is marked deprecated (with a non-empty value list, so that the
warning point is reached), regardless of whether the named field is present
in the resource. -/
theorem c4_deprecation_warning_iff_deprecated (f : Field) (r : Resource)
    (b : Data) (h : f.expected_values ≠ []) :
    (Diag.deprecated_field f.name ∈ (assemble f r ⟨b, []⟩).1.diags ↔
      f.deprecated = true) := by
  obtain ⟨v, vs, hv⟩ : ∃ v vs, f.expected_values = v :: vs := by
    cases hv : f.expected_values with
    | nil => exact absurd hv h
    | cons a l => exact ⟨a, l, rfl⟩
  rcases hrf : r.field_named f.name with _ | rf
  · by_cases hreq : f.required <;> by_cases hdep : f.deprecated <;>
      simp [assemble, find_field, Field.offset, hv, hrf, hreq, hdep,
        AsmState.report, assembleValues_dep_mem]
  · by_cases hreq : f.required <;> by_cases hdep : f.deprecated <;>
      simp [assemble, find_field, Field.offset, hv, hrf, hreq, hdep,
        AsmState.report, assembleValues_dep_mem] <;>
      split <;> simp

/-- C4 witness: at the deprecated absent field the warning is present, and
the amended condition evaluates. -/
theorem c4_witness :
    (Diag.deprecated_field c4Field.name ∈
        (assemble c4Field c4Resource s0).1.diags ↔
      c4Field.deprecated = true) :=
  c4_deprecation_warning_iff_deprecated c4Field c4Resource ⟨[], 0⟩
    (List.cons_ne_nil _ _)

/-- C6: confirmed. A required field absent from the resource draws the
missing-field error, yet layout proceeds as for an absent field: no fatal
outcome, the diagnostics are exactly the missing-field error plus the
deprecation warning when flagged, the blob is the padded blob with every
slot default written through its generator (slots without one keep the
zero fill), and the padding reaches at least the required data size. -/
theorem c6_missing_required_field_reported_and_defaulted
    (f : Field) (r : Resource) (s : AsmState) (off : Nat)
    (hreq : f.required = true) (habs : r.field_named f.name = none)
    (hoff : f.offset = some off) :
    (assemble f r s).2 = none ∧
    (assemble f r s).1.diags =
      (s.diags ++ [Diag.missing_field f.name]) ++
        (if f.deprecated then [Diag.deprecated_field f.name] else []) ∧
    (assemble f r s).1.blob =
      f.expected_values.foldl (fun b e => e.write_default_value b)
        (((s.blob.set_insertion_point s.blob.size).pad_to_size
            f.required_data_size).set_insertion_point off) ∧
    f.required_data_size ≤
      ((s.blob.set_insertion_point s.blob.size).pad_to_size
        f.required_data_size).size := by
  refine ⟨?_, ?_, ?_, pad_to_size_size _ _⟩ <;>
    by_cases hdep : f.deprecated <;>
      simp [assemble, find_field, hreq, habs, hoff, hdep, AsmState.report]

/-- C6 witness: the required field must with a width-2 default generator at
offset 10 is reported missing and the default is written over the
padding. -/
theorem c6_witness :
    (assemble c6Field c6Resource s0).2 = none ∧
    (assemble c6Field c6Resource s0).1.diags =
      (s0.diags ++ [Diag.missing_field c6Field.name]) ++
        (if c6Field.deprecated then [Diag.deprecated_field c6Field.name]
         else []) ∧
    (assemble c6Field c6Resource s0).1.blob =
      c6Field.expected_values.foldl (fun b e => e.write_default_value b)
        (((s0.blob.set_insertion_point s0.blob.size).pad_to_size
            c6Field.required_data_size).set_insertion_point 10) ∧
    c6Field.required_data_size ≤
      ((s0.blob.set_insertion_point s0.blob.size).pad_to_size
        c6Field.required_data_size).size :=
  c6_missing_required_field_reported_and_defaulted c6Field c6Resource s0 10
    rfl rfl rfl

end Kdk
